import Mathlib

/-!
# Pebbles game — shallow embedding and verification

Shallow embedding of the core logic of the pebbles game contract
(`src/src/lib.rs`): the data model (`GameState`), the computer's
move-selection policy (`get_contract_pebbles_taken`), the first-player
draw (`get_first_player`), session creation (`init`, `restart_game`,
`get_init_pebbles_remain`), the computer reply after a human turn
(`update_game_state`), and the message handler (`handle`) acting on the
single global session slot.

Modelling conventions:
* u32 values are `Nat`s; theorems carry explicit `< 2^32` representation
  bounds where the arithmetic depends on them.
* The contract is compiled in release mode, so u32 arithmetic wraps on
  overflow; we model the one subtraction where underflow is possible with
  the wrapping subtraction `wsub`.  Rust's `%` with a zero divisor is a
  panic in every build mode; functions that can hit it return `Option`,
  with `none` standing for the panic.
* Randomness (`get_random_u32`) is an external capability: every draw is
  passed in as an explicit `Nat` argument.
* Events replied via `msg::reply` are collected in a `List PebblesEvent`.
* The handler takes the state out of the static slot before validating
  and writes it back only at the end; a panic therefore leaves the slot
  empty.  `handle` maps the slot contents to the new slot contents
  together with the emitted events and the panic, if any.
-/

namespace PebblesGame

/-- `2^32`, the modulus of u32 arithmetic. -/
def U32 : Nat := 4294967296

/-- Wrapping u32 subtraction (release build: overflow checks are off, so
`a - b` wraps modulo `2^32` when `b > a`).  Faithful for `a, b < U32`. -/
def wsub (a b : Nat) : Nat :=
  if b ≤ a then a - b else a + U32 - b

/-- `DifficultyLevel` from `pebbles-game-io`. -/
inductive DifficultyLevel where
  | Easy
  | Hard
deriving DecidableEq, Repr

/-- `Player` from `pebbles-game-io`. -/
inductive Player where
  | User
  | Program
deriving DecidableEq, Repr

/-- `GameState` from `pebbles-game-io`: the single live session. -/
structure GameState where
  pebbles_count : Nat
  max_pebbles_per_turn : Nat
  pebbles_remaining : Nat
  difficulty : DifficultyLevel
  first_player : Player
  winner : Option Player
deriving DecidableEq, Repr

/-- `PebblesEvent` from `pebbles-game-io`: replies emitted by the contract. -/
inductive PebblesEvent where
  | CounterTurn : Nat → PebblesEvent
  | Won : Player → PebblesEvent
deriving DecidableEq, Repr

/-- `PebblesInit` from `pebbles-game-io`: the init message. -/
structure PebblesInit where
  difficulty : DifficultyLevel
  pebbles_count : Nat
  max_pebbles_per_turn : Nat
deriving DecidableEq, Repr

/-- `PebblesAction` from `pebbles-game-io`: the handled actions. -/
inductive PebblesAction where
  | Turn : Nat → PebblesAction
  | GiveUp : PebblesAction
  | Restart : DifficultyLevel → Nat → Nat → PebblesAction
deriving DecidableEq, Repr

/-- The distinct panics the contract code can raise while processing a
message (each is a Rust `panic!`/`expect` or an arithmetic trap). -/
inductive GamePanic where
  | NotInitialized
  | InvalidMove
  | InsufficientPebbles
  | ModuloByZero
deriving DecidableEq, Repr

/-- `get_contract_pebbles_taken` (src/src/lib.rs lines 111-130).  The Easy
branch draws `random_number` (passed explicitly here) and computes
`(random_number % max_pebbles_per_turn + 1).min(pebbles_remaining)`; the
modulo panics when `max_pebbles_per_turn == 0` (`none`).  The Hard branch
computes `pebbles_remaining % (max_pebbles_per_turn + 1)` where the `+ 1`
is a wrapping u32 addition, so the divisor is `0` (a panic, `none`) when
`max_pebbles_per_turn = 2^32 - 1`; the `random_number % max` sum in the
Easy branch cannot overflow for u32 operands. -/
def get_contract_pebbles_taken (random_number pebbles_remaining max_pebbles_per_turn : Nat)
    (difficulty : DifficultyLevel) : Option Nat :=
  match difficulty with
  | DifficultyLevel.Easy =>
      if max_pebbles_per_turn = 0 then none
      else some (min (random_number % max_pebbles_per_turn + 1) pebbles_remaining)
  | DifficultyLevel.Hard =>
      let m := (max_pebbles_per_turn + 1) % U32
      if m = 0 then none
      else
        let optimal_pebbles_taken := pebbles_remaining % m
        some (if optimal_pebbles_taken = 0 then 1 else optimal_pebbles_taken)

/-- `get_first_player` (src/src/lib.rs lines 136-143): even draw → User,
odd draw → Program. -/
def get_first_player (random_number : Nat) : Player :=
  if random_number % 2 = 0 then Player.User else Player.Program

/-- `get_init_pebbles_remain` (src/src/lib.rs lines 155-171).  When the
program moves first it takes its opening move from the full pile and a
`CounterTurn` is replied; the subtraction `pebbles_remaining -=
counter_pebbles_taken` is wrapping u32 subtraction.  `none` when the
decision panics. -/
def get_init_pebbles_remain (random_number pebbles_count max_pebbles_per_turn : Nat)
    (first_player : Player) (difficulty : DifficultyLevel) :
    Option (Nat × List PebblesEvent) :=
  if first_player = Player.Program then
    match get_contract_pebbles_taken random_number pebbles_count max_pebbles_per_turn difficulty with
    | none => none
    | some counter_pebbles_taken =>
        some (wsub pebbles_count counter_pebbles_taken,
          [PebblesEvent.CounterTurn counter_pebbles_taken])
  else
    some (pebbles_count, [])

/-- `restart_game` (src/src/lib.rs lines 205-222): draws the first player
(`r1`), computes the initial remaining pile (opening decision draw `r2`),
and builds the fresh `GameState` with `winner := none`.  `none` when the
opening decision panics. -/
def restart_game (r1 r2 : Nat) (difficulty : DifficultyLevel)
    (pebbles_count max_pebbles_per_turn : Nat) :
    Option (GameState × List PebblesEvent) :=
  let first_player := get_first_player r1
  match get_init_pebbles_remain r2 pebbles_count max_pebbles_per_turn first_player difficulty with
  | none => none
  | some (pebbles_remaining, evs) =>
      some ({ pebbles_count := pebbles_count
            , max_pebbles_per_turn := max_pebbles_per_turn
            , pebbles_remaining := pebbles_remaining
            , difficulty := difficulty
            , first_player := first_player
            , winner := none }, evs)

/-- `init` (src/src/lib.rs lines 16-38): identical construction to
`restart_game`, from the `PebblesInit` message.  `none` when the opening
decision panics (the program is then never initialized). -/
def init (m : PebblesInit) (r1 r2 : Nat) : Option (GameState × List PebblesEvent) :=
  restart_game r1 r2 m.difficulty m.pebbles_count m.max_pebbles_per_turn

/-- `update_game_state` (src/src/lib.rs lines 177-194): the computer's
reply after a non-exhausting human turn.  Subtracts the decision from
`pebbles_remaining` (wrapping); on reaching `0` the program wins, else a
`CounterTurn` is replied.  `none` when the decision panics. -/
def update_game_state (random_number : Nat) (game_state : GameState) :
    Option (GameState × List PebblesEvent) :=
  match get_contract_pebbles_taken random_number game_state.pebbles_remaining
      game_state.max_pebbles_per_turn game_state.difficulty with
  | none => none
  | some counter_pebbles_taken =>
      let r := wsub game_state.pebbles_remaining counter_pebbles_taken
      if r = 0 then
        some ({ game_state with pebbles_remaining := r, winner := some Player.Program },
          [PebblesEvent.Won Player.Program])
      else
        some ({ game_state with pebbles_remaining := r },
          [PebblesEvent.CounterTurn counter_pebbles_taken])

/-- Result of one `handle` invocation: the contents of the static
`PEBBLES_GAME` slot afterwards, the replied events, and the panic if the
invocation trapped.  Because the code takes the state out of the slot
before validating, a panic leaves `slot = none`. -/
structure HandleResult where
  slot : Option GameState
  events : List PebblesEvent
  outcome : Option GamePanic
deriving DecidableEq, Repr

/-- `handle` (src/src/lib.rs lines 43-81).  `r1` is the draw consumed by a
computer reply or by the restart first-player choice; `r2` the draw for a
restart opening decision.  The state is taken from the slot first
(`PEBBLES_GAME.take()`), validated, mutated, and written back only on
success. -/
def handle (action : PebblesAction) (r1 r2 : Nat) (slot : Option GameState) : HandleResult :=
  match slot with
  | none => { slot := none, events := [], outcome := some GamePanic.NotInitialized }
  | some game_state =>
    match action with
    | PebblesAction.Turn pebbles_taken =>
        if pebbles_taken > game_state.max_pebbles_per_turn ∨ pebbles_taken = 0 then
          { slot := none, events := [], outcome := some GamePanic.InvalidMove }
        else if pebbles_taken > game_state.pebbles_remaining then
          { slot := none, events := [], outcome := some GamePanic.InsufficientPebbles }
        else
          let gs := { game_state with
            pebbles_remaining := wsub game_state.pebbles_remaining pebbles_taken }
          if gs.pebbles_remaining = 0 then
            { slot := some { gs with winner := some Player.User }
            , events := [PebblesEvent.Won Player.User], outcome := none }
          else
            match update_game_state r1 gs with
            | none => { slot := none, events := [], outcome := some GamePanic.ModuloByZero }
            | some (gs2, evs) => { slot := some gs2, events := evs, outcome := none }
    | PebblesAction.GiveUp =>
        { slot := some { game_state with winner := some Player.Program }
        , events := [PebblesEvent.Won Player.Program], outcome := none }
    | PebblesAction.Restart difficulty pebbles_count max_pebbles_per_turn =>
        match restart_game r1 r2 difficulty pebbles_count max_pebbles_per_turn with
        | none => { slot := none, events := [], outcome := some GamePanic.ModuloByZero }
        | some (gs2, evs) => { slot := some gs2, events := evs, outcome := none }

/-! ## Helper lemmas -/

theorem wsub_of_le {a b : Nat} (h : b ≤ a) : wsub a b = a - b := by
  simp [wsub, h]

theorem wsub_of_lt {a b : Nat} (h : a < b) : wsub a b = a + U32 - b := by
  simp [wsub, Nat.not_le.mpr h]

theorem get_contract_easy_eq (r rem max : Nat) :
    get_contract_pebbles_taken r rem max DifficultyLevel.Easy =
      if max = 0 then none else some (min (r % max + 1) rem) := rfl

theorem get_contract_hard_eq (r rem max : Nat) (hmax : max < U32) :
    get_contract_pebbles_taken r rem max DifficultyLevel.Hard =
      if max + 1 = U32 then none
      else some (if rem % (max + 1) = 0 then 1 else rem % (max + 1)) := by
  unfold get_contract_pebbles_taken
  by_cases hb : max + 1 = U32
  · simp [hb]
  · have hlt : max + 1 < U32 := by omega
    simp [Nat.mod_eq_of_lt hlt, hb]

theorem restart_game_eq (r1 r2 : Nat) (dif : DifficultyLevel) (pc mx : Nat) :
    restart_game r1 r2 dif pc mx =
      if r1 % 2 = 0 then
        some ({ pebbles_count := pc, max_pebbles_per_turn := mx, pebbles_remaining := pc,
                difficulty := dif, first_player := Player.User, winner := none }, [])
      else
        match get_contract_pebbles_taken r2 pc mx dif with
        | none => none
        | some t =>
            some ({ pebbles_count := pc, max_pebbles_per_turn := mx,
                    pebbles_remaining := wsub pc t, difficulty := dif,
                    first_player := Player.Program, winner := none },
                  [PebblesEvent.CounterTurn t]) := by
  by_cases hr : r1 % 2 = 0 <;>
    cases hdec : get_contract_pebbles_taken r2 pc mx dif <;>
      simp [restart_game, get_init_pebbles_remain, get_first_player, hr, hdec]

theorem handle_turn_eq (n r1 r2 : Nat) (gs : GameState) :
    handle (PebblesAction.Turn n) r1 r2 (some gs) =
      if n > gs.max_pebbles_per_turn ∨ n = 0 then
        { slot := none, events := [], outcome := some GamePanic.InvalidMove }
      else if n > gs.pebbles_remaining then
        { slot := none, events := [], outcome := some GamePanic.InsufficientPebbles }
      else if wsub gs.pebbles_remaining n = 0 then
        { slot := some { gs with pebbles_remaining := wsub gs.pebbles_remaining n
                               , winner := some Player.User }
        , events := [PebblesEvent.Won Player.User], outcome := none }
      else
        match update_game_state r1
            { gs with pebbles_remaining := wsub gs.pebbles_remaining n } with
        | none => { slot := none, events := [], outcome := some GamePanic.ModuloByZero }
        | some (gs2, evs) => { slot := some gs2, events := evs, outcome := none } := rfl

theorem handle_giveup_eq (r1 r2 : Nat) (gs : GameState) :
    handle PebblesAction.GiveUp r1 r2 (some gs) =
      { slot := some { gs with winner := some Player.Program },
        events := [PebblesEvent.Won Player.Program], outcome := none } := rfl

theorem sub_mod_self_mod (a n : Nat) : (a - a % n) % n = 0 := by
  have h := Nat.div_add_mod a n
  have heq : a - a % n = n * (a / n) := by omega
  rw [heq]
  exact Nat.mul_mod_right n (a / n)

/-! ## Claims about the move-selection policy -/

/-- Claim C3: for every Hard-difficulty decision with `pebbles_remaining ≥ 1`, the
computer takes `optimal = pebbles_remaining mod (max_pebbles_per_turn + 1)` when that
value is non-zero and takes exactly 1 when `optimal = 0`; in particular with remaining 7
and cap 4 it takes 2, and with remaining 5 and cap 4 it takes 1. -/
theorem C3_hard_decision_formula :
    (∀ r rem max v : Nat, 1 ≤ rem → max < U32 →
        get_contract_pebbles_taken r rem max DifficultyLevel.Hard = some v →
        (rem % (max + 1) ≠ 0 → v = rem % (max + 1)) ∧ (rem % (max + 1) = 0 → v = 1))
    ∧ get_contract_pebbles_taken 0 7 4 DifficultyLevel.Hard = some 2
    ∧ get_contract_pebbles_taken 0 5 4 DifficultyLevel.Hard = some 1 := by
  refine ⟨?_, by decide, by decide⟩
  intro r rem max v h1 hmax hv
  rw [get_contract_hard_eq r rem max hmax] at hv
  by_cases hb : max + 1 = U32
  · rw [if_pos hb] at hv
    cases hv
  · rw [if_neg hb] at hv
    constructor
    · intro hne
      rw [if_neg hne] at hv
      exact (Option.some.injEq _ _ ▸ hv).symm
    · intro hz
      rw [if_pos hz] at hv
      exact (Option.some.injEq _ _ ▸ hv).symm

/-- Witness for C3 at `r = 0`, `rem = 7`, `max = 4`, `v = 2`. -/
theorem C3_hard_decision_formula_witness :
    (7 % (4 + 1) ≠ 0 → 2 = 7 % (4 + 1)) ∧ (7 % (4 + 1) = 0 → 2 = 1) :=
  C3_hard_decision_formula.1 0 7 4 2 (by decide) (by decide) (by decide)

/-- Claim C8: every Easy-difficulty decision with `pebbles_remaining ≥ 1` takes
`min (r % max_pebbles_per_turn + 1) pebbles_remaining`; the unclipped value
`r % max + 1` lies in `[1, max]`, and the taken amount never exceeds the pile. -/
theorem C8_easy_decision_formula (r rem max v : Nat) (h1 : 1 ≤ rem)
    (hv : get_contract_pebbles_taken r rem max DifficultyLevel.Easy = some v) :
    v = min (r % max + 1) rem ∧ 1 ≤ r % max + 1 ∧ r % max + 1 ≤ max ∧ v ≤ rem := by
  rw [get_contract_easy_eq] at hv
  by_cases h : max = 0
  · rw [if_pos h] at hv
    cases hv
  · rw [if_neg h] at hv
    have hmod : r % max < max := Nat.mod_lt _ (Nat.pos_of_ne_zero h)
    have hv2 : min (r % max + 1) rem = v := Option.some.injEq _ _ ▸ hv
    refine ⟨hv2.symm, Nat.le_add_left 1 _, by omega, ?_⟩
    rw [← hv2]
    exact Nat.min_le_right _ _

/-- Witness for C8 at `r = 5`, `rem = 3`, `max = 4`, `v = 2`. -/
theorem C8_easy_decision_formula_witness :
    2 = min (5 % 4 + 1) 3 ∧ 1 ≤ 5 % 4 + 1 ∧ 5 % 4 + 1 ≤ 4 ∧ 2 ≤ 3 :=
  C8_easy_decision_formula 5 3 4 2 (by decide) (by decide)

/-- Claim C10: whenever `get_contract_pebbles_taken` is called with
`pebbles_remaining ≥ 1` and `max_pebbles_per_turn ≥ 1`, under both difficulties and every
draw, the returned value `v` satisfies `1 ≤ v ≤ pebbles_remaining`, so the caller's u32
subtraction never underflows.  Both hypotheses are necessary: with `pebbles_remaining = 0`
under Hard the function returns 1 and the subtraction in `get_init_pebbles_remain` wraps
to `2^32 - 1`; with `max_pebbles_per_turn = 0` under Easy the modulo panics. -/
theorem C10_decision_bounds :
    (∀ (r rem max : Nat) (dif : DifficultyLevel) (v : Nat), 1 ≤ rem → 1 ≤ max → max < U32 →
        get_contract_pebbles_taken r rem max dif = some v → 1 ≤ v ∧ v ≤ rem)
    ∧ (∀ r max : Nat, max + 1 < U32 →
        get_contract_pebbles_taken r 0 max DifficultyLevel.Hard = some 1
        ∧ get_init_pebbles_remain r 0 max Player.Program DifficultyLevel.Hard =
            some (4294967295, [PebblesEvent.CounterTurn 1]))
    ∧ (∀ r rem : Nat, get_contract_pebbles_taken r rem 0 DifficultyLevel.Easy = none) := by
  refine ⟨?_, ?_, ?_⟩
  · intro r rem max dif v h1 hm hmax hv
    cases dif with
    | Easy =>
        rw [get_contract_easy_eq, if_neg (by omega : ¬ max = 0)] at hv
        have hv2 : min (r % max + 1) rem = v := Option.some.injEq _ _ ▸ hv
        constructor
        · rw [← hv2]
          exact le_min (Nat.le_add_left 1 _) h1
        · rw [← hv2]
          exact Nat.min_le_right _ _
    | Hard =>
        rw [get_contract_hard_eq r rem max hmax] at hv
        by_cases hb : max + 1 = U32
        · rw [if_pos hb] at hv
          cases hv
        · rw [if_neg hb] at hv
          by_cases hz : rem % (max + 1) = 0
          · rw [if_pos hz] at hv
            have hv2 : (1 : Nat) = v := Option.some.injEq _ _ ▸ hv
            omega
          · rw [if_neg hz] at hv
            have hv2 : rem % (max + 1) = v := Option.some.injEq _ _ ▸ hv
            have := Nat.mod_le rem (max + 1)
            omega
  · intro r max hmax
    have hdec : get_contract_pebbles_taken r 0 max DifficultyLevel.Hard = some 1 := by
      rw [get_contract_hard_eq r 0 max (by omega), if_neg (by omega : ¬ max + 1 = U32)]
      simp
    refine ⟨hdec, ?_⟩
    unfold get_init_pebbles_remain
    rw [if_pos rfl, hdec]
    decide
  · intro r rem
    rw [get_contract_easy_eq, if_pos rfl]

/-- Witness for C10 at `r = 0`, `rem = 7`, `max = 4`, Hard, `v = 2`. -/
theorem C10_decision_bounds_witness : 1 ≤ 2 ∧ 2 ≤ 7 :=
  C10_decision_bounds.1 0 7 4 DifficultyLevel.Hard 2 (by decide) (by decide) (by decide)
    (by decide)

/-- Claim C4: for every Hard-difficulty computer move taken from a pile `r ≥ 1` with
`r mod (max_pebbles_per_turn + 1) ≠ 0`, the pebbles remaining after the computer's move
is a multiple of `max_pebbles_per_turn + 1`, possibly 0 — both for the reply move in
`update_game_state` and for the opening move in `get_init_pebbles_remain`. -/
theorem C4_hard_post_move_multiple :
    (∀ (r : Nat) (gs gs2 : GameState) (evs : List PebblesEvent),
        gs.difficulty = DifficultyLevel.Hard →
        gs.max_pebbles_per_turn < U32 →
        1 ≤ gs.pebbles_remaining →
        gs.pebbles_remaining % (gs.max_pebbles_per_turn + 1) ≠ 0 →
        update_game_state r gs = some (gs2, evs) →
        gs2.pebbles_remaining % (gs.max_pebbles_per_turn + 1) = 0)
    ∧ (∀ (r pc mx rem2 : Nat) (evs : List PebblesEvent),
        mx < U32 → 1 ≤ pc → pc % (mx + 1) ≠ 0 →
        get_init_pebbles_remain r pc mx Player.Program DifficultyLevel.Hard =
          some (rem2, evs) →
        rem2 % (mx + 1) = 0) := by
  constructor
  · intro r gs gs2 evs hdif hmax h1 hmod hupd
    have hdec := get_contract_hard_eq r gs.pebbles_remaining gs.max_pebbles_per_turn hmax
    by_cases hb : gs.max_pebbles_per_turn + 1 = U32
    · rw [if_pos hb] at hdec
      unfold update_game_state at hupd
      rw [hdif, hdec] at hupd
      cases hupd
    · rw [if_neg hb, if_neg hmod] at hdec
      unfold update_game_state at hupd
      rw [hdif, hdec] at hupd
      have hle : gs.pebbles_remaining % (gs.max_pebbles_per_turn + 1) ≤ gs.pebbles_remaining :=
        Nat.mod_le _ _
      simp only [wsub_of_le hle] at hupd
      have key : gs2.pebbles_remaining =
          gs.pebbles_remaining - gs.pebbles_remaining % (gs.max_pebbles_per_turn + 1) := by
        by_cases hz : gs.pebbles_remaining -
            gs.pebbles_remaining % (gs.max_pebbles_per_turn + 1) = 0
        · rw [if_pos hz] at hupd
          injection hupd with h
          injection h with hA hE
          rw [← hA]
        · rw [if_neg hz] at hupd
          injection hupd with h
          injection h with hA hE
          rw [← hA]
      rw [key]
      exact sub_mod_self_mod _ _
  · intro r pc mx rem2 evs hmax h1 hmod hinit
    have hdec := get_contract_hard_eq r pc mx hmax
    by_cases hb : mx + 1 = U32
    · rw [if_pos hb] at hdec
      unfold get_init_pebbles_remain at hinit
      rw [if_pos rfl, hdec] at hinit
      cases hinit
    · rw [if_neg hb, if_neg hmod] at hdec
      unfold get_init_pebbles_remain at hinit
      rw [if_pos rfl, hdec] at hinit
      have hle : pc % (mx + 1) ≤ pc := Nat.mod_le _ _
      simp only [wsub_of_le hle] at hinit
      injection hinit with h
      injection h with hA hE
      rw [← hA]
      exact sub_mod_self_mod _ _

/-- Witness for C4 at the reply move from remaining 7 with cap 4 (the computer takes 2,
leaving 5, a multiple of 5). -/
theorem C4_hard_post_move_multiple_witness : (5 : Nat) % (4 + 1) = 0 :=
  C4_hard_post_move_multiple.1 0
    { pebbles_count := 10, max_pebbles_per_turn := 4, pebbles_remaining := 7,
      difficulty := DifficultyLevel.Hard, first_player := Player.User, winner := none }
    { pebbles_count := 10, max_pebbles_per_turn := 4, pebbles_remaining := 5,
      difficulty := DifficultyLevel.Hard, first_player := Player.User, winner := none }
    [PebblesEvent.CounterTurn 2] rfl (by decide) (by decide) (by decide) (by decide)

/-! ## Claims about session creation and the handler -/

/-- Claim C1 (code bug): the invariant `0 ≤ pebbles_remaining ≤ pebbles_count` fails for
the state produced by `init` with `pebbles_count = 0`, `max_pebbles_per_turn = 1`,
difficulty Hard, and an odd first-player draw (program starts): the forced opening take
of 1 underflows the u32 subtraction, committing `pebbles_remaining = 2^32 - 1`, which
exceeds `pebbles_count = 0`. -/
theorem C1_invariant_fails_at_zero_count :
    init { difficulty := DifficultyLevel.Hard, pebbles_count := 0,
           max_pebbles_per_turn := 1 } 1 0 =
      some ({ pebbles_count := 0, max_pebbles_per_turn := 1,
              pebbles_remaining := 4294967295, difficulty := DifficultyLevel.Hard,
              first_player := Player.Program, winner := none },
            [PebblesEvent.CounterTurn 1])
    ∧ ¬ (4294967295 ≤ (0 : Nat)) := by decide

/-- Claim C2 (code bug): the three validation failures raise exactly the claimed error
kinds and commit no new state, but the session was already taken out of the static slot
(`PEBBLES_GAME.take()`), so each failure leaves the slot empty and the next operation —
even a state query — fails `NotInitialized` instead of finding the prior session. -/
theorem C2_failed_turn_empties_slot :
    handle (PebblesAction.Turn 0) 0 0
        (some { pebbles_count := 20, max_pebbles_per_turn := 10, pebbles_remaining := 7,
                difficulty := DifficultyLevel.Easy, first_player := Player.User,
                winner := none }) =
      { slot := none, events := [], outcome := some GamePanic.InvalidMove }
    ∧ handle (PebblesAction.Turn 11) 0 0
        (some { pebbles_count := 20, max_pebbles_per_turn := 10, pebbles_remaining := 7,
                difficulty := DifficultyLevel.Easy, first_player := Player.User,
                winner := none }) =
      { slot := none, events := [], outcome := some GamePanic.InvalidMove }
    ∧ handle (PebblesAction.Turn 8) 0 0
        (some { pebbles_count := 20, max_pebbles_per_turn := 10, pebbles_remaining := 7,
                difficulty := DifficultyLevel.Easy, first_player := Player.User,
                winner := none }) =
      { slot := none, events := [], outcome := some GamePanic.InsufficientPebbles }
    ∧ handle (PebblesAction.Turn 1) 0 0 none =
      { slot := none, events := [], outcome := some GamePanic.NotInitialized } := by decide

/-- Claim C5 counterexample: a restart with `pebbles_count = 0`, `max = 1`, Hard, and an
odd first-player draw (program starts) commits `pebbles_remaining = 2^32 - 1`, which is
not `pebbles_count` minus an opening move: it exceeds `pebbles_count = 0`. -/
theorem C5_counterexample :
    restart_game 1 0 DifficultyLevel.Hard 0 1 =
      some ({ pebbles_count := 0, max_pebbles_per_turn := 1,
              pebbles_remaining := 4294967295, difficulty := DifficultyLevel.Hard,
              first_player := Player.Program, winner := none },
            [PebblesEvent.CounterTurn 1])
    ∧ ¬ (4294967295 ≤ (0 : Nat)) := by decide

/-- Claim C5 amended: every create/restart that completes yields `winner = none`, copies
the configuration, and emits no `Won` event; if the user is drawn to start,
`pebbles_remaining = pebbles_count` with no event; if the program is drawn to start,
exactly one opening move `t` is taken with `CounterTurn t` emitted and
`pebbles_remaining` is `pebbles_count - t` by wrapping u32 subtraction — the ordinary
difference whenever `t ≤ pebbles_count` (`init` delegates to the same construction, so
this covers both entry points). -/
theorem C5_restart_shape (r1 r2 : Nat) (dif : DifficultyLevel) (pc mx : Nat)
    (gs : GameState) (evs : List PebblesEvent)
    (h : restart_game r1 r2 dif pc mx = some (gs, evs)) :
    gs.winner = none
    ∧ gs.pebbles_count = pc
    ∧ gs.max_pebbles_per_turn = mx
    ∧ (∀ p, PebblesEvent.Won p ∉ evs)
    ∧ (gs.first_player = Player.User → gs.pebbles_remaining = pc ∧ evs = [])
    ∧ (gs.first_player = Player.Program →
        ∃ t, evs = [PebblesEvent.CounterTurn t] ∧ gs.pebbles_remaining = wsub pc t
          ∧ (t ≤ pc → gs.pebbles_remaining = pc - t)) := by
  rw [restart_game_eq] at h
  by_cases hr : r1 % 2 = 0
  · rw [if_pos hr] at h
    simp only [Option.some.injEq, Prod.mk.injEq] at h
    obtain ⟨hgs, hevs⟩ := h
    subst hgs
    subst hevs
    refine ⟨rfl, rfl, rfl, by simp, fun _ => ⟨rfl, rfl⟩, fun hp => ?_⟩
    exact absurd hp (by simp)
  · rw [if_neg hr] at h
    cases hdec : get_contract_pebbles_taken r2 pc mx dif with
    | none =>
        rw [hdec] at h
        simp at h
    | some t =>
        rw [hdec] at h
        simp only [Option.some.injEq, Prod.mk.injEq] at h
        obtain ⟨hgs, hevs⟩ := h
        subst hgs
        subst hevs
        refine ⟨rfl, rfl, rfl, by simp, fun hp => absurd hp (by simp), fun _ => ?_⟩
        exact ⟨t, rfl, rfl, fun hle => wsub_of_le hle⟩

/-- Witness for C5 at a Hard restart of 5 pebbles, cap 1, odd first-player draw. -/
theorem C5_restart_shape_witness :
    ({ pebbles_count := 5, max_pebbles_per_turn := 1, pebbles_remaining := 4,
       difficulty := DifficultyLevel.Hard, first_player := Player.Program,
       winner := none } : GameState).winner = none :=
  (C5_restart_shape 1 0 DifficultyLevel.Hard 5 1
    { pebbles_count := 5, max_pebbles_per_turn := 1, pebbles_remaining := 4,
      difficulty := DifficultyLevel.Hard, first_player := Player.Program, winner := none }
    [PebblesEvent.CounterTurn 1] (by decide)).1

/-- Claim C6 (code bug): `max_pebbles_per_turn = 0` is not rejected — there is no
`DegenerateConfiguration` check anywhere in the code.  `init` commits a session with
`max_pebbles_per_turn = 0`, and a `Restart` carrying `max_pebbles_per_turn = 0` replaces
the session with one, raising no error. -/
theorem C6_degenerate_config_not_rejected :
    init { difficulty := DifficultyLevel.Easy, pebbles_count := 5,
           max_pebbles_per_turn := 0 } 0 0 =
      some ({ pebbles_count := 5, max_pebbles_per_turn := 0, pebbles_remaining := 5,
              difficulty := DifficultyLevel.Easy, first_player := Player.User,
              winner := none }, [])
    ∧ handle (PebblesAction.Restart DifficultyLevel.Hard 5 0) 0 0
        (some { pebbles_count := 10, max_pebbles_per_turn := 4, pebbles_remaining := 10,
                difficulty := DifficultyLevel.Easy, first_player := Player.User,
                winner := none }) =
      { slot := some { pebbles_count := 5, max_pebbles_per_turn := 0,
                       pebbles_remaining := 5, difficulty := DifficultyLevel.Hard,
                       first_player := Player.User, winner := none },
        events := [], outcome := none } := by decide

/-- Claim C7 counterexample: a terminal session (winner set by GiveUp) with
`pebbles_remaining = 10` still accepts `Turn 2`, which changes `pebbles_remaining`
to 7 (user takes 2, Easy computer with draw 0 takes 1). -/
theorem C7_counterexample :
    (handle PebblesAction.GiveUp 0 0
        (some { pebbles_count := 10, max_pebbles_per_turn := 4, pebbles_remaining := 10,
                difficulty := DifficultyLevel.Easy, first_player := Player.User,
                winner := none })).slot =
      some { pebbles_count := 10, max_pebbles_per_turn := 4, pebbles_remaining := 10,
             difficulty := DifficultyLevel.Easy, first_player := Player.User,
             winner := some Player.Program }
    ∧ (handle (PebblesAction.Turn 2) 0 0
        (some { pebbles_count := 10, max_pebbles_per_turn := 4, pebbles_remaining := 10,
                difficulty := DifficultyLevel.Easy, first_player := Player.User,
                winner := some Player.Program })).slot =
      some { pebbles_count := 10, max_pebbles_per_turn := 4, pebbles_remaining := 7,
             difficulty := DifficultyLevel.Easy, first_player := Player.User,
             winner := some Player.Program }
    ∧ (7 : Nat) ≠ 10 := by decide

/-- Claim C7 amended: for terminal sessions whose pile is exhausted (`winner ≠ none` and
`pebbles_remaining = 0`) no Turn or GiveUp changes `pebbles_remaining`: every Turn fails
validation before mutating (leaving no stored session at all), and GiveUp only sets the
winner.  A terminal session with `pebbles_remaining > 0` — reachable via GiveUp — does
not enjoy this: the handler never consults `winner`, so a legal Turn still changes the
pile. -/
theorem C7_terminal_exhausted_unchanged (gs : GameState) (n r1 r2 : Nat)
    (hw : gs.winner ≠ none) (hrem : gs.pebbles_remaining = 0) :
    (∀ gs2 : GameState, (handle (PebblesAction.Turn n) r1 r2 (some gs)).slot = some gs2 →
        gs2.pebbles_remaining = gs.pebbles_remaining)
    ∧ (∀ gs2 : GameState, (handle PebblesAction.GiveUp r1 r2 (some gs)).slot = some gs2 →
        gs2.pebbles_remaining = gs.pebbles_remaining) := by
  constructor
  · intro gs2 h
    rw [handle_turn_eq] at h
    by_cases h0 : n > gs.max_pebbles_per_turn ∨ n = 0
    · rw [if_pos h0] at h
      simp at h
    · rw [if_neg h0] at h
      have h1 : n > gs.pebbles_remaining := by
        push_neg at h0
        omega
      rw [if_pos h1] at h
      simp at h
  · intro gs2 h
    rw [handle_giveup_eq] at h
    simp only [Option.some.injEq] at h
    subst h
    rfl

/-- Witness for C7 at an exhausted user-won session and `GiveUp`. -/
theorem C7_terminal_exhausted_unchanged_witness : (0 : Nat) = 0 :=
  (C7_terminal_exhausted_unchanged
    { pebbles_count := 10, max_pebbles_per_turn := 4, pebbles_remaining := 0,
      difficulty := DifficultyLevel.Easy, first_player := Player.User,
      winner := some Player.User } 1 0 0 (by simp) rfl).2
    { pebbles_count := 10, max_pebbles_per_turn := 4, pebbles_remaining := 0,
      difficulty := DifficultyLevel.Easy, first_player := Player.User,
      winner := some Player.Program } (by decide)

/-- Claim C9 counterexample: an active session with `pebbles_remaining = 10` greater
than `max_pebbles_per_turn = 4` rejects `Turn 10` (taking the whole pile) with
`InvalidMove` instead of yielding a user win. -/
theorem C9_counterexample :
    handle (PebblesAction.Turn 10) 0 0
        (some { pebbles_count := 10, max_pebbles_per_turn := 4, pebbles_remaining := 10,
                difficulty := DifficultyLevel.Easy, first_player := Player.User,
                winner := none }) =
      { slot := none, events := [], outcome := some GamePanic.InvalidMove } := by decide

/-- Claim C9 amended: for every active session with
`1 ≤ pebbles_remaining ≤ max_pebbles_per_turn`, the action `Turn pebbles_remaining`
yields `winner = some User` with a single `Won User` event and no computer counter-move;
when `pebbles_remaining` exceeds `max_pebbles_per_turn` the same action fails with
`InvalidMove`. -/
theorem C9_take_all_user_wins (gs : GameState) (r1 r2 : Nat)
    (hw : gs.winner = none) (h1 : 1 ≤ gs.pebbles_remaining)
    (h2 : gs.pebbles_remaining ≤ gs.max_pebbles_per_turn) :
    handle (PebblesAction.Turn gs.pebbles_remaining) r1 r2 (some gs) =
      { slot := some { gs with pebbles_remaining := 0, winner := some Player.User },
        events := [PebblesEvent.Won Player.User], outcome := none } := by
  rw [handle_turn_eq]
  rw [if_neg (by omega :
    ¬ (gs.pebbles_remaining > gs.max_pebbles_per_turn ∨ gs.pebbles_remaining = 0))]
  rw [if_neg (by omega : ¬ gs.pebbles_remaining > gs.pebbles_remaining)]
  rw [wsub_of_le (le_refl gs.pebbles_remaining), Nat.sub_self]
  rw [if_pos rfl]

/-- Witness for C9 at an active session with 3 pebbles remaining and cap 4. -/
theorem C9_take_all_user_wins_witness :
    handle (PebblesAction.Turn 3) 0 0
        (some { pebbles_count := 10, max_pebbles_per_turn := 4, pebbles_remaining := 3,
                difficulty := DifficultyLevel.Easy, first_player := Player.User,
                winner := none }) =
      { slot := some { pebbles_count := 10, max_pebbles_per_turn := 4,
                       pebbles_remaining := 0, difficulty := DifficultyLevel.Easy,
                       first_player := Player.User, winner := some Player.User },
        events := [PebblesEvent.Won Player.User], outcome := none } :=
  C9_take_all_user_wins
    { pebbles_count := 10, max_pebbles_per_turn := 4, pebbles_remaining := 3,
      difficulty := DifficultyLevel.Easy, first_player := Player.User, winner := none }
    0 0 rfl (by decide) (by decide)

end PebblesGame
